import Mathlib

/-!
Verification development for the order-execution engine
(`src/orders/controller.ts`, `src/orders/worker.ts`, `src/orders/queue.ts`,
`src/dex/mockDex.ts`, `src/db/database.ts`, `src/utils/logger.ts`).

Prices and fees are JavaScript numbers; they are embedded as rationals (ℚ).
Random draws (`Math.random()`), the clock (`Date.now()`) and the database
outcome of each query are passed as explicit inputs, so every definition is a
pure, executable function of the source's inputs.
-/

namespace SwapEngine

/-- Venue identifiers, the `dex` field of `DexQuote` in `src/types.ts`. -/
inductive Dex where
  | raydium
  | meteora
deriving DecidableEq, Repr, BEq

/-- `DexQuote` from `src/types.ts`: a venue's price and fee response. -/
structure DexQuote where
  dex : Dex
  price : ℚ
  fee : ℚ
deriving DecidableEq, Repr

/-- `basePrice` field of `MockDexRouter` in `src/dex/mockDex.ts`. -/
def basePrice : ℚ := 100

/-- `getRaydiumQuote` from `src/dex/mockDex.ts`:
`price = basePrice * (0.98 + Math.random() * 0.04)`, `fee = 0.003`;
`u` is the `Math.random()` draw (uniform on `[0,1)`). -/
def raydiumQuote (u : ℚ) : DexQuote :=
  { dex := Dex.raydium, price := basePrice * (98/100 + u * (4/100)), fee := 3/1000 }

/-- `getMeteoraQuote` from `src/dex/mockDex.ts`:
`price = basePrice * (0.97 + Math.random() * 0.05)`, `fee = 0.002`;
`u` is the `Math.random()` draw. -/
def meteoraQuote (u : ℚ) : DexQuote :=
  { dex := Dex.meteora, price := basePrice * (97/100 + u * (5/100)), fee := 2/1000 }

/-- Venue selection in the worker (`src/orders/worker.ts` line 48):
`const chosen = rQ.price >= mQ.price ? rQ : mQ`. -/
def chooseQuote (rQ mQ : DexQuote) : DexQuote :=
  if rQ.price ≥ mQ.price then rQ else mQ

/-- The structured payload of the `DEX comparison completed` decision-log entry
written by the worker (`src/orders/worker.ts` lines 49-54).  The `reason`
string `Better price: ${chosen.price.toFixed(4)}` is embedded by the numeric
price it cites (`reasonPrice`); `toFixed(4)` is display formatting. -/
structure ComparisonLog where
  raydiumPrice : ℚ
  raydiumFee : ℚ
  meteoraPrice : ℚ
  meteoraFee : ℚ
  chosen : Dex
  reasonPrice : ℚ
deriving DecidableEq, Repr

/-- The decision-log payload as the worker builds it from the two quotes. -/
def comparisonLog (rQ mQ : DexQuote) : ComparisonLog :=
  { raydiumPrice := rQ.price
    raydiumFee := rQ.fee
    meteoraPrice := mQ.price
    meteoraFee := mQ.fee
    chosen := (chooseQuote rQ mQ).dex
    reasonPrice := (chooseQuote rQ mQ).price }

/-- Order type enum from `src/types.ts`. -/
inductive OrderType where
  | market
  | limit
  | sniper
deriving DecidableEq, Repr

/-- `Order` from `src/types.ts` (the fields the gateway fills in). -/
structure Order where
  orderId : String
  tokenIn : String
  tokenOut : String
  amount : ℚ
  type : OrderType
  createdAt : String
deriving DecidableEq, Repr

/-- `LogEntry` from `src/utils/logger.ts`. -/
structure LogEntry where
  timestamp : String
  orderId : String
  event : String
deriving DecidableEq, Repr

/-- The request body of `POST /api/orders/execute`
(`Partial<Order>` in `src/orders/controller.ts`): every field may be absent. -/
structure SubmitBody where
  tokenIn : Option String
  tokenOut : Option String
  amount : Option ℚ
  type : Option OrderType
deriving DecidableEq, Repr

/-- JavaScript falsiness of an optional string: `!x` is true for a missing
field and for the empty string. -/
def strFalsy : Option String → Bool
  | none => true
  | some s => s.isEmpty

/-- JavaScript falsiness of an optional number: `!x` is true for a missing
field and for `0`. -/
def numFalsy : Option ℚ → Bool
  | none => true
  | some q => q == 0

/-- The validation check of `src/orders/controller.ts` line 15:
`!body || !body.tokenIn || !body.tokenOut || !body.amount`. -/
def rejectsSubmission : Option SubmitBody → Bool
  | none => true
  | some b => strFalsy b.tokenIn || strFalsy b.tokenOut || numFalsy b.amount

/-- Modelled from the spec's words, for comparison with `rejectsSubmission`:
"Fails with `ValidationError` if any required field is missing or
amount ≤ 0." -/
def specRejectsSubmission : Option SubmitBody → Bool
  | none => true
  | some b =>
      strFalsy b.tokenIn || strFalsy b.tokenOut ||
        (match b.amount with
         | none => true
         | some q => decide (q ≤ 0))

/-- Result of the submission handler: a synchronous 400 rejection, or a 202
acceptance carrying the minted order id and the subscription hint. -/
inductive SubmitResult where
  | rejected (code : Nat) (error : String)
  | accepted (orderId : String) (ws : String)
deriving DecidableEq, Repr

/-- The state the gateway can touch: the job queue and the decision log. -/
structure GatewayState where
  queue : List Order
  logs : List LogEntry
deriving DecidableEq, Repr

/-- The `POST /api/orders/execute` handler (`src/orders/controller.ts` lines
13-37).  `freshId` is the value `genId()` would return and `now` the
timestamp; both are explicit inputs.  On rejection nothing is minted or
enqueued; on acceptance the order is enqueued and the id plus websocket hint
are returned at once — the handler never runs the lifecycle itself. -/
def handleSubmit (body : Option SubmitBody) (freshId now : String)
    (st : GatewayState) : SubmitResult × GatewayState :=
  if rejectsSubmission body then
    (SubmitResult.rejected 400 "tokenIn, tokenOut and amount required", st)
  else
    match body with
    | none => (SubmitResult.rejected 400 "tokenIn, tokenOut and amount required", st)
    | some b =>
        let order : Order :=
          { orderId := freshId
            tokenIn := b.tokenIn.getD ""
            tokenOut := b.tokenOut.getD ""
            amount := b.amount.getD 0
            type := b.type.getD OrderType.market
            createdAt := now }
        (SubmitResult.accepted freshId "/api/orders/execute (websocket)",
         { st with queue := st.queue ++ [order] })

/-- Order lifecycle statuses (`src/orders/worker.ts`, spec §4.3). -/
inductive Status where
  | pending
  | routing
  | building
  | submitted
  | confirmed
  | failed
deriving DecidableEq, Repr, BEq

/-- The `metadata` object attached to a bus event, one constructor per
emission site in `src/orders/worker.ts`. -/
inductive EventMeta where
  | buildingMeta (dex : Dex) (price : ℚ)
  | submittedMeta (dex : Dex)
  | confirmedMeta (txHash : String) (executedPrice : ℚ) (dex : Dex)
  | failedMeta (error : String)
deriving DecidableEq, Repr

/-- An event published on `orderEvents` (the per-order event bus), and equally
the JSON message a subscribed websocket forwards
(`src/orders/controller.ts` lines 76-80 spread the event and the order id). -/
structure BusEvent where
  status : Status
  orderId : String
  meta : Option EventMeta
deriving DecidableEq, Repr

/-- Outcome of the `executeSwap` call inside one attempt: it throws, or it
returns `{ txHash, executedPrice }` (`src/dex/mockDex.ts`). -/
inductive SwapOutcome where
  | fails (msg : String)
  | succeeds (txHash : String) (executedPrice : ℚ)
deriving DecidableEq, Repr

/-- `true` exactly when the attempt's swap throws. -/
def SwapOutcome.isFails : SwapOutcome → Bool
  | .fails _ => true
  | .succeeds _ _ => false

/-- The non-deterministic inputs of one invocation of the worker handler:
the two quotes that resolve and the settlement outcome. -/
structure AttemptInput where
  rQ : DexQuote
  mQ : DexQuote
  swap : SwapOutcome
deriving DecidableEq, Repr

/-- The bus events one invocation of the worker handler publishes, in order
(`src/orders/worker.ts` lines 30-87): `routing`, `building`, `submitted`,
then `confirmed` on swap success or `failed` (from the catch block) when the
swap throws.  No `pending` event is ever published on the bus. -/
def attemptEvents (oid : String) (a : AttemptInput) : List BusEvent :=
  let chosen := chooseQuote a.rQ a.mQ
  [⟨Status.routing, oid, none⟩,
   ⟨Status.building, oid, some (EventMeta.buildingMeta chosen.dex chosen.price)⟩,
   ⟨Status.submitted, oid, some (EventMeta.submittedMeta chosen.dex)⟩] ++
  (match a.swap with
   | .succeeds tx p => [⟨Status.confirmed, oid, some (EventMeta.confirmedMeta tx p chosen.dex)⟩]
   | .fails msg => [⟨Status.failed, oid, some (EventMeta.failedMeta msg)⟩])

/-- `attempts: 3` from the job options in `src/orders/controller.ts` line 30. -/
def jobAttempts : Nat := 3

/-- `backoff: { type: 'exponential', delay: 1000 }` from
`src/orders/controller.ts` line 31. -/
def backoffBaseMs : Nat := 1000

/-- Modelled from the spec: the dispatcher's exponential backoff (the queue
library's retry machinery is external to `src/`): the delay before retry
number `attemptsMade` (1-based) is `base * 2 ^ (attemptsMade - 1)`. -/
def backoffDelayMs (attemptsMade : Nat) : Nat :=
  backoffBaseMs * 2 ^ (attemptsMade - 1)

/-- What the dispatcher does after a failed attempt. -/
inductive RetryDecision where
  | retryAfter (delayMs : Nat)
  | permanentFail
deriving DecidableEq, Repr

/-- Modelled from the spec: after attempt number `attemptsMade` (1-based)
throws, the dispatcher schedules a delayed retry while attempts remain under
the `attempts: 3` cap, and otherwise marks the job permanently failed. -/
def retryDecision (attemptsMade : Nat) : RetryDecision :=
  if attemptsMade < jobAttempts then RetryDecision.retryAfter (backoffDelayMs attemptsMade)
  else RetryDecision.permanentFail

/-- Modelled from the spec: the retry loop the queue library runs around the
worker handler, with the `attempts` cap from the job options.  `remaining`
attempts are left; each failed attempt is retried until the cap, and when the
last allowed attempt fails the `worker.on('failed')` hook
(`src/orders/worker.ts` lines 96-105) publishes one more `failed` event with
the last error.  A successful attempt ends the job. -/
def runAttempts (oid : String) : Nat → List AttemptInput → List BusEvent
  | 0, _ => []
  | _ + 1, [] => []
  | n + 1, a :: rest =>
      attemptEvents oid a ++
      (match a.swap with
       | .succeeds _ _ => []
       | .fails msg =>
           if n = 0 then [⟨Status.failed, oid, some (EventMeta.failedMeta msg)⟩]
           else runAttempts oid n rest)

/-- The full per-order bus-event trace of one job: up to `jobAttempts`
attempts drawn from `attempts`. -/
def jobEvents (oid : String) (attempts : List AttemptInput) : List BusEvent :=
  runAttempts oid jobAttempts attempts

/-- The messages a websocket subscriber (subscribed from the start) receives
for an order: the synthetic `pending` snapshot the subscription itself sends
(`src/orders/controller.ts` line 74) followed by every forwarded bus event. -/
def subscriberMessages (oid : String) (attempts : List AttemptInput) : List BusEvent :=
  ⟨Status.pending, oid, none⟩ :: jobEvents oid attempts

/-- A job exhausts its retries when at least `jobAttempts` attempt inputs are
available and the first `jobAttempts` of them all throw. -/
def exhaustsRetries (attempts : List AttemptInput) : Prop :=
  jobAttempts ≤ attempts.length ∧
    ∀ a ∈ attempts.take jobAttempts, a.swap.isFails = true

/-- The string stored in the `chosen_dex` column for a venue. -/
def dexName : Dex → String
  | Dex.raydium => "raydium"
  | Dex.meteora => "meteora"

/-- A row of the `orders` table (`src/db/schema.sql`). -/
structure OrderRow where
  order_id : String
  token_in : String
  token_out : String
  amount : ℚ
  order_type : String
  status : String
  chosen_dex : Option String
  tx_hash : Option String
  executed_price : Option ℚ
  error_message : Option String
  created_at : String
deriving DecidableEq, Repr

/-- The optional `data` argument of `updateOrderStatus`
(`src/db/database.ts` lines 56-60). -/
structure UpdateData where
  chosenDex : Option String := none
  txHash : Option String := none
  executedPrice : Option ℚ := none
  error : Option String := none
deriving DecidableEq, Repr

/-- The fresh `pending` row the `saveOrder` insert writes for an order
(`src/db/database.ts` lines 46-49). -/
def newOrderRow (o : Order) : OrderRow :=
  { order_id := o.orderId
    token_in := o.tokenIn
    token_out := o.tokenOut
    amount := o.amount
    order_type :=
      (match o.type with
       | OrderType.market => "market"
       | OrderType.limit => "limit"
       | OrderType.sniper => "sniper")
    status := "pending"
    chosen_dex := none
    tx_hash := none
    executed_price := none
    error_message := none
    created_at := o.createdAt }

/-- The `INSERT ... ON CONFLICT (order_id) DO NOTHING` query inside
`saveOrder` (`src/db/database.ts` lines 45-50): insert a fresh `pending` row
unless a row with this `order_id` already exists; `dbFail` models the query
throwing. -/
def saveOrderQuery (dbFail : Bool) (o : Order) (store : List OrderRow) :
    Except String (List OrderRow) :=
  if dbFail then Except.error "query failed"
  else if store.any (fun row => row.order_id == o.orderId) then Except.ok store
  else Except.ok (store ++ [newOrderRow o])

/-- `saveOrder` (`src/db/database.ts` lines 43-54): the query runs inside
`try/catch`; a thrown error is caught, logged to the console and swallowed,
so the caller always gets a normal return.  The second component is the list
of console-error lines produced. -/
def saveOrder (dbFail : Bool) (o : Order) (store : List OrderRow) :
    List OrderRow × List String :=
  match saveOrderQuery dbFail o store with
  | Except.ok s => (s, [])
  | Except.error _ => (store, ["Save order error"])

/-- The column updates `updateOrderStatus` builds dynamically
(`src/db/database.ts` lines 62-81): `status` and `updated_at` always;
`chosen_dex`, `tx_hash` and `error_message` only when the field is present
and truthy (a present empty string is skipped); `executed_price` whenever the
field is present (`!== undefined`), including `0`. -/
def updateRow (status : String) (d : UpdateData) (row : OrderRow) : OrderRow :=
  { row with
    status := status
    chosen_dex :=
      (match d.chosenDex with
       | some s => if s.isEmpty then row.chosen_dex else some s
       | none => row.chosen_dex)
    tx_hash :=
      (match d.txHash with
       | some s => if s.isEmpty then row.tx_hash else some s
       | none => row.tx_hash)
    executed_price :=
      (match d.executedPrice with
       | some p => some p
       | none => row.executed_price)
    error_message :=
      (match d.error with
       | some s => if s.isEmpty then row.error_message else some s
       | none => row.error_message) }

/-- The `UPDATE orders SET ... WHERE order_id = $1` query inside
`updateOrderStatus`: rewrite every row whose `order_id` matches. -/
def updateOrderStatusQuery (dbFail : Bool) (oid status : String) (d : UpdateData)
    (store : List OrderRow) : Except String (List OrderRow) :=
  if dbFail then Except.error "query failed"
  else Except.ok (store.map (fun row => if row.order_id == oid then updateRow status d row else row))

/-- `updateOrderStatus` (`src/db/database.ts` lines 56-90): like `saveOrder`,
the query runs inside `try/catch` and a thrown error is caught and logged,
never rethrown. -/
def updateOrderStatus (dbFail : Bool) (oid status : String) (d : UpdateData)
    (store : List OrderRow) : List OrderRow × List String :=
  match updateOrderStatusQuery dbFail oid status d store with
  | Except.ok s => (s, [])
  | Except.error _ => (store, ["Update order status error"])

/-- One invocation of the worker handler with the database modelled
(`src/orders/worker.ts` lines 30-87).  `dbF` gives the outcome of each of the
six store writes in program order (`saveOrder`; `updateOrderStatus` for
`pending`, `routing`, `building`, `submitted`, and the terminal status);
missing entries mean success.  Returns the published bus events, the final
store, and the console-error lines of failed writes.  Every event is emitted
before the corresponding status is persisted, and neither emission nor
lifecycle progress depends on any write's outcome. -/
def runAttemptDb (dbF : List Bool) (o : Order) (a : AttemptInput)
    (store : List OrderRow) : List BusEvent × List OrderRow × List String :=
  let chosen := chooseQuote a.rQ a.mQ
  let r1 := saveOrder (dbF.getD 0 false) o store
  let r2 := updateOrderStatus (dbF.getD 1 false) o.orderId "pending" {} r1.1
  let e1 : BusEvent := ⟨Status.routing, o.orderId, none⟩
  let r3 := updateOrderStatus (dbF.getD 2 false) o.orderId "routing" {} r2.1
  let e2 : BusEvent := ⟨Status.building, o.orderId, some (EventMeta.buildingMeta chosen.dex chosen.price)⟩
  let r4 := updateOrderStatus (dbF.getD 3 false) o.orderId "building"
    { chosenDex := some (dexName chosen.dex) } r3.1
  let e3 : BusEvent := ⟨Status.submitted, o.orderId, some (EventMeta.submittedMeta chosen.dex)⟩
  let r5 := updateOrderStatus (dbF.getD 4 false) o.orderId "submitted" {} r4.1
  match a.swap with
  | SwapOutcome.succeeds tx p =>
      let e4 : BusEvent := ⟨Status.confirmed, o.orderId, some (EventMeta.confirmedMeta tx p chosen.dex)⟩
      let r6 := updateOrderStatus (dbF.getD 5 false) o.orderId "confirmed"
        { txHash := some tx, executedPrice := some p } r5.1
      ([e1, e2, e3, e4], r6.1, r1.2 ++ r2.2 ++ r3.2 ++ r4.2 ++ r5.2 ++ r6.2)
  | SwapOutcome.fails msg =>
      let e4 : BusEvent := ⟨Status.failed, o.orderId, some (EventMeta.failedMeta msg)⟩
      let r6 := updateOrderStatus (dbF.getD 5 false) o.orderId "failed"
        { error := some msg } r5.1
      ([e1, e2, e3, e4], r6.1, r1.2 ++ r2.2 ++ r3.2 ++ r4.2 ++ r5.2 ++ r6.2)

/-- One worker-handler step as an action: publishing an event on the bus, or
persisting a status to the store. -/
inductive Action where
  | publish (s : Status)
  | persist (s : Status)
deriving DecidableEq, Repr

/-- The publish/persist actions of one invocation of the worker handler, in
program order (`src/orders/worker.ts` lines 32-87): the initial save and
`pending` write happen with no bus publish; each later transition publishes
its event and then awaits the status write. -/
def attemptActions (a : AttemptInput) : List Action :=
  [Action.persist Status.pending, Action.persist Status.pending,
   Action.publish Status.routing, Action.persist Status.routing,
   Action.publish Status.building, Action.persist Status.building,
   Action.publish Status.submitted, Action.persist Status.submitted] ++
  (match a.swap with
   | SwapOutcome.succeeds _ _ => [Action.publish Status.confirmed, Action.persist Status.confirmed]
   | SwapOutcome.fails _ => [Action.publish Status.failed, Action.persist Status.failed])

/-- `SwapResult` from `src/types.ts`. -/
structure SwapResult where
  txHash : String
  executedPrice : ℚ
deriving DecidableEq, Repr

/-- A base-36 digit character, as JavaScript `Number.prototype.toString(36)`
renders one: `0`-`9` then `a`-`z`. -/
def digit36 (d : Nat) : Char :=
  if d < 10 then Char.ofNat (48 + d) else Char.ofNat (87 + d)

/-- Base-36 digits of `n`, most significant first (`fuel` bounds the
recursion; any `fuel ≥ n` is exact). -/
def toBase36Core : Nat → Nat → List Char
  | 0, _ => []
  | fuel + 1, n =>
      if n = 0 then []
      else toBase36Core fuel (n / 36) ++ [digit36 (n % 36)]

/-- JavaScript `n.toString(36)` for a natural number. -/
def toBase36 (n : Nat) : String :=
  if n = 0 then "0" else String.mk (toBase36Core (n + 1) n)

/-- The random draws and the clock reading consumed by one `executeSwap`
call (`src/dex/mockDex.ts` lines 20-28): `failRoll` and `priceRoll` are
`Math.random()` draws (uniform on `[0,1)`), `nowMs` is `Date.now()`, and
`idRoll` is `Math.floor(Math.random() * 10000)`. -/
structure SwapRandom where
  failRoll : ℚ
  priceRoll : ℚ
  nowMs : Nat
  idRoll : Nat
deriving DecidableEq, Repr

/-- The failure threshold of `executeSwap`: `Math.random() < 0.02`. -/
def failThreshold : ℚ := 2/100

/-- `executeSwap` from `src/dex/mockDex.ts` lines 20-28, with its randomness
and clock as explicit inputs: it throws when `failRoll < 0.02`, and otherwise
returns `txHash = MOCK_TX_${Date.now().toString(36)}_${idRoll}` and
`executedPrice = basePrice * (0.98 + Math.random() * 0.04)`.  The settlement
latency (`sleep(2000 + Math.random() * 1000)`) has no effect on the result. -/
def executeSwap (r : SwapRandom) : Except String SwapResult :=
  if r.failRoll < failThreshold then
    Except.error "Simulated network execution failure"
  else
    Except.ok
      { txHash := "MOCK_TX_" ++ toBase36 r.nowMs ++ "_" ++ toString r.idRoll
        executedPrice := basePrice * (98/100 + r.priceRoll * (4/100)) }

/-- `concurrency: 10` from the worker options (`src/orders/worker.ts` line 91). -/
def concurrencyCap : Nat := 10

/-- `limiter: { max: 100, ... }` from the worker options (line 92). -/
def limiterMax : Nat := 100

/-- `limiter: { ..., duration: 60000 }` from the worker options (line 92). -/
def limiterWindowMs : Nat := 60000

/-- Modelled from the spec: the dispatcher's admission state (the queue
library's scheduler is external to `src/`).  `queued` holds jobs awaiting
admission in order, `executing` the jobs currently running their lifecycle
(the building/submitted work happens inside an executing slot), `finished`
the jobs whose worker task ended, `startTimes` the clock readings of every
job start, and `now` the clock in milliseconds. -/
structure SchedState where
  queued : List String
  executing : List String
  finished : List String
  startTimes : List Nat
  now : Nat
deriving DecidableEq, Repr

/-- Whether a job start at time `s` lies in the trailing rate window at
time `t`. -/
def inWindow (t s : Nat) : Bool :=
  decide (t < s + limiterWindowMs) && decide (s ≤ t)

/-- Number of job starts inside the trailing 60-second window ending at `t`. -/
def windowStarts (st : SchedState) (t : Nat) : Nat :=
  st.startTimes.countP (inWindow t)

/-- The count the rate gate inspects at admission time: starts within the
last `limiterWindowMs` milliseconds of `st.now`. -/
def gateCount (st : SchedState) : Nat :=
  st.startTimes.countP (fun s => decide (st.now < s + limiterWindowMs))

/-- Modelled from the spec: one scheduler step.  Time may advance, a job may
be enqueued, a queued job may be admitted only when BOTH gates pass (fewer
than `concurrencyCap` executing, fewer than `limiterMax` starts in the
trailing window), and an executing job may finish.  No step discards a job. -/
inductive SchedStep : SchedState → SchedState → Prop where
  | tick (st : SchedState) (d : Nat) :
      SchedStep st { st with now := st.now + d }
  | enqueue (st : SchedState) (j : String) :
      SchedStep st { st with queued := st.queued ++ [j] }
  | admitJob (st : SchedState) (j : String) (rest : List String)
      (hq : st.queued = j :: rest)
      (hc : st.executing.length < concurrencyCap)
      (hr : gateCount st < limiterMax) :
      SchedStep st
        { queued := rest
          executing := j :: st.executing
          finished := st.finished
          startTimes := st.now :: st.startTimes
          now := st.now }
  | finish (st : SchedState) (j : String) (hj : j ∈ st.executing) :
      SchedStep st { st with executing := st.executing.erase j, finished := j :: st.finished }

/-- The scheduler's initial state: nothing queued, nothing started. -/
def initSched : SchedState :=
  { queued := [], executing := [], finished := [], startTimes := [], now := 0 }

/-- Reachability under scheduler steps. -/
def SchedReachable : SchedState → SchedState → Prop :=
  Relation.ReflTransGen SchedStep

/-- A job is present somewhere in the scheduler (queued, executing or
finished) — the "none are dropped" notion. -/
def jobPresent (st : SchedState) (j : String) : Prop :=
  j ∈ st.queued ∨ j ∈ st.executing ∨ j ∈ st.finished

/-- C1: for every pair of quotes returned by the two venues, the routing step
selects the quote whose price equals `max(priceRaydium, priceMeteora)`; when
the two prices are exactly equal it selects the first-listed venue (raydium);
and the decision-log entry for the order contains both raw quotes (price and
fee of each) and names the chosen venue with a justification citing the
chosen (winning) price. -/
theorem routing_selects_max (rQ mQ : DexQuote)
    (hr : rQ.dex = Dex.raydium) (hm : mQ.dex = Dex.meteora) :
    (chooseQuote rQ mQ).price = max rQ.price mQ.price ∧
    (chooseQuote rQ mQ = rQ ∨ chooseQuote rQ mQ = mQ) ∧
    (rQ.price = mQ.price → (chooseQuote rQ mQ).dex = Dex.raydium) ∧
    (comparisonLog rQ mQ).raydiumPrice = rQ.price ∧
    (comparisonLog rQ mQ).raydiumFee = rQ.fee ∧
    (comparisonLog rQ mQ).meteoraPrice = mQ.price ∧
    (comparisonLog rQ mQ).meteoraFee = mQ.fee ∧
    (comparisonLog rQ mQ).chosen = (chooseQuote rQ mQ).dex ∧
    (comparisonLog rQ mQ).reasonPrice = (chooseQuote rQ mQ).price := by
  refine ⟨?_, ?_, ?_, rfl, rfl, rfl, rfl, rfl, rfl⟩
  · rcases le_or_lt mQ.price rQ.price with h | h
    · rw [chooseQuote, if_pos h, max_eq_left h]
    · rw [chooseQuote, if_neg (not_le.mpr h), max_eq_right (le_of_lt h)]
  · rw [chooseQuote]
    split
    · exact Or.inl rfl
    · exact Or.inr rfl
  · intro he
    rw [chooseQuote, if_pos (le_of_eq he.symm)]
    exact hr

/-- C1 witness: concrete quotes with exactly equal prices — raydium wins and
the log's chosen venue matches. -/
theorem routing_selects_max_witness :
    (raydiumQuote (1/2)).price = (meteoraQuote (3/5)).price ∧
    (chooseQuote (raydiumQuote (1/2)) (meteoraQuote (3/5))).dex = Dex.raydium ∧
    (comparisonLog (raydiumQuote (1/2)) (meteoraQuote (3/5))).chosen =
      (chooseQuote (raydiumQuote (1/2)) (meteoraQuote (3/5))).dex := by
  have hpr : (raydiumQuote (1/2)).price = (meteoraQuote (3/5)).price := by
    norm_num [raydiumQuote, meteoraQuote, basePrice]
  have h := routing_selects_max (raydiumQuote (1/2)) (meteoraQuote (3/5)) rfl rfl
  exact ⟨hpr, h.2.2.1 hpr, h.2.2.2.2.2.2.2.1⟩

/-- C2 counterexample: the submission `{tokenIn: "USDC", tokenOut: "SOL",
amount: -5}` has `amount ≤ 0`, so the claim requires a synchronous validation
rejection, but the gateway's check `!body.amount` is false for `-5` and the
request is accepted (an order id is minted and a job enqueued). -/
theorem gateway_validation_counterexample :
    specRejectsSubmission (some ⟨some "USDC", some "SOL", some (-5), none⟩) = true ∧
    rejectsSubmission (some ⟨some "USDC", some "SOL", some (-5), none⟩) = false ∧
    (handleSubmit (some ⟨some "USDC", some "SOL", some (-5), none⟩) "id-1" "t0"
        ⟨[], []⟩).1 =
      SubmitResult.accepted "id-1" "/api/orders/execute (websocket)" ∧
    (handleSubmit (some ⟨some "USDC", some "SOL", some (-5), none⟩) "id-1" "t0"
        ⟨[], []⟩).2.queue.length = 1 := by
  refine ⟨?_, rfl, rfl, rfl⟩
  simp [specRejectsSubmission, strFalsy]

/-- C2 (amended): the gateway rejects synchronously exactly when `tokenIn` is
missing or empty, `tokenOut` is missing or empty, or `amount` is missing or
equal to `0` (JavaScript falsiness — a strictly negative amount is NOT
rejected); on every rejection no order id is minted, no job is enqueued and
no decision-log entry is written (the state is untouched); on every accepted
submission the fresh order id is returned immediately together with the
websocket subscription hint and exactly the one new job is enqueued. -/
theorem gateway_validation (b : SubmitBody) (freshId now : String) (st : GatewayState) :
    (rejectsSubmission (some b) = true ↔
      (b.tokenIn = none ∨ b.tokenIn = some "" ∨ b.tokenOut = none ∨ b.tokenOut = some "" ∨
       b.amount = none ∨ b.amount = some 0)) ∧
    (rejectsSubmission (some b) = true →
      handleSubmit (some b) freshId now st =
        (SubmitResult.rejected 400 "tokenIn, tokenOut and amount required", st)) ∧
    (rejectsSubmission (some b) = false →
      ∃ ord : Order, ord.orderId = freshId ∧
        handleSubmit (some b) freshId now st =
          (SubmitResult.accepted freshId "/api/orders/execute (websocket)",
           { st with queue := st.queue ++ [ord] })) := by
  refine ⟨?_, ?_, ?_⟩
  · obtain ⟨tin, tout, amt, ty⟩ := b
    simp only [rejectsSubmission, strFalsy, numFalsy, Bool.or_eq_true]
    cases tin <;> cases tout <;> cases amt <;>
      simp [String.isEmpty_iff, beq_iff_eq, or_assoc]
  · intro h
    simp [handleSubmit, h]
  · intro h
    refine ⟨{ orderId := freshId
              tokenIn := b.tokenIn.getD ""
              tokenOut := b.tokenOut.getD ""
              amount := b.amount.getD 0
              type := b.type.getD OrderType.market
              createdAt := now }, rfl, ?_⟩
    simp [handleSubmit, h]

/-- C2 witness: a well-formed submission is accepted with the fresh id and
the hint, and enqueues one job. -/
theorem gateway_validation_witness :
    ∃ ord : SwapEngine.Order, ord.orderId = "id-7" ∧
      handleSubmit (some ⟨some "USDC", some "SOL", some 100, none⟩) "id-7" "t0" ⟨[], []⟩ =
        (SubmitResult.accepted "id-7" "/api/orders/execute (websocket)",
         { queue := [ord], logs := [] }) :=
  (gateway_validation ⟨some "USDC", some "SOL", some 100, none⟩ "id-7" "t0" ⟨[], []⟩).2.2 rfl

/-- Predicate picking out `confirmed` bus events. -/
def isConfirmedEv (e : BusEvent) : Bool := e.status == Status.confirmed

/-- Predicate picking out `failed` bus events. -/
def isFailedEv (e : BusEvent) : Bool := e.status == Status.failed

/-- Predicate picking out `routing` bus events (one per attempt started). -/
def isRoutingEv (e : BusEvent) : Bool := e.status == Status.routing

/-- The metadata shape the spec promises for each status
(`{venue, price}` at building, `{venue}` at submitted,
`{transactionId, executedPrice, venue}` at confirmed, `{error}` at failed,
nothing at pending/routing). -/
def shapeOk (e : BusEvent) : Prop :=
  match e.status with
  | Status.pending => e.meta = none
  | Status.routing => e.meta = none
  | Status.building => ∃ d p, e.meta = some (EventMeta.buildingMeta d p)
  | Status.submitted => ∃ d, e.meta = some (EventMeta.submittedMeta d)
  | Status.confirmed => ∃ tx p d, e.meta = some (EventMeta.confirmedMeta tx p d)
  | Status.failed => ∃ msg, e.meta = some (EventMeta.failedMeta msg)

lemma attemptEvents_count_confirmed (oid : String) (a : AttemptInput) :
    (attemptEvents oid a).countP isConfirmedEv = if a.swap.isFails then 0 else 1 := by
  obtain ⟨rQ, mQ, sw⟩ := a
  cases sw <;> rfl

lemma attemptEvents_count_failed (oid : String) (a : AttemptInput) :
    (attemptEvents oid a).countP isFailedEv = if a.swap.isFails then 1 else 0 := by
  obtain ⟨rQ, mQ, sw⟩ := a
  cases sw <;> rfl

lemma attemptEvents_count_routing (oid : String) (a : AttemptInput) :
    (attemptEvents oid a).countP isRoutingEv = 1 := by
  obtain ⟨rQ, mQ, sw⟩ := a
  cases sw <;> rfl

lemma attemptEvents_no_confirmed_of_fails (oid : String) (a : AttemptInput)
    (hf : a.swap.isFails = true) (e : BusEvent) (he : e ∈ attemptEvents oid a) :
    e.status ≠ Status.confirmed := by
  intro hst
  have h0 : (attemptEvents oid a).countP isConfirmedEv = 0 := by
    rw [attemptEvents_count_confirmed, hf]
    rfl
  have h2 := List.countP_eq_zero.mp h0 e he
  rw [isConfirmedEv, hst] at h2
  exact absurd h2 (by decide)

lemma attemptEvents_shape (oid : String) (a : AttemptInput) :
    ∀ e ∈ attemptEvents oid a, e.orderId = oid ∧ shapeOk e := by
  obtain ⟨rQ, mQ, sw⟩ := a
  cases sw with
  | succeeds tx p =>
      intro e he
      simp [attemptEvents] at he
      rcases he with rfl | rfl | rfl | rfl
      · exact ⟨rfl, rfl⟩
      · exact ⟨rfl, ⟨_, _, rfl⟩⟩
      · exact ⟨rfl, ⟨_, rfl⟩⟩
      · exact ⟨rfl, ⟨_, _, _, rfl⟩⟩
  | fails msg =>
      intro e he
      simp [attemptEvents] at he
      rcases he with rfl | rfl | rfl | rfl
      · exact ⟨rfl, rfl⟩
      · exact ⟨rfl, ⟨_, _, rfl⟩⟩
      · exact ⟨rfl, ⟨_, rfl⟩⟩
      · exact ⟨rfl, ⟨_, rfl⟩⟩

lemma runAttempts_cons_succeeds (oid : String) (m : Nat) (rQ mQ : DexQuote)
    (tx : String) (p : ℚ) (rest : List AttemptInput) :
    runAttempts oid (m + 1) (⟨rQ, mQ, SwapOutcome.succeeds tx p⟩ :: rest) =
      attemptEvents oid ⟨rQ, mQ, SwapOutcome.succeeds tx p⟩ := by
  rw [runAttempts]
  exact List.append_nil _

lemma runAttempts_cons_fails (oid : String) (m : Nat) (rQ mQ : DexQuote)
    (msg : String) (rest : List AttemptInput) :
    runAttempts oid (m + 1) (⟨rQ, mQ, SwapOutcome.fails msg⟩ :: rest) =
      attemptEvents oid ⟨rQ, mQ, SwapOutcome.fails msg⟩ ++
        (if m = 0 then [⟨Status.failed, oid, some (EventMeta.failedMeta msg)⟩]
         else runAttempts oid m rest) := rfl

lemma countP_confirmed_final (oid msg : String) :
    List.countP isConfirmedEv
      [(⟨Status.failed, oid, some (EventMeta.failedMeta msg)⟩ : BusEvent)] = 0 := rfl

lemma countP_routing_final (oid msg : String) :
    List.countP isRoutingEv
      [(⟨Status.failed, oid, some (EventMeta.failedMeta msg)⟩ : BusEvent)] = 0 := rfl

lemma countP_failed_final (oid msg : String) :
    List.countP isFailedEv
      [(⟨Status.failed, oid, some (EventMeta.failedMeta msg)⟩ : BusEvent)] = 1 := rfl

lemma runAttempts_count_confirmed_le (oid : String) :
    ∀ (atts : List AttemptInput) (n : Nat),
      (runAttempts oid n atts).countP isConfirmedEv ≤ 1 := by
  intro atts
  induction atts with
  | nil => intro n; cases n <;> simp [runAttempts]
  | cons a rest ih =>
      intro n
      cases n with
      | zero => simp [runAttempts]
      | succ m =>
          obtain ⟨rQ, mQ, sw⟩ := a
          cases sw with
          | succeeds tx p =>
              rw [runAttempts_cons_succeeds, attemptEvents_count_confirmed]
              simp [SwapOutcome.isFails]
          | fails msg =>
              rw [runAttempts_cons_fails, List.countP_append,
                attemptEvents_count_confirmed]
              simp only [SwapOutcome.isFails, if_true, Nat.zero_add]
              by_cases hm : m = 0
              · rw [if_pos hm, countP_confirmed_final]
                omega
              · rw [if_neg hm]
                exact ih m

lemma runAttempts_count_routing_le (oid : String) :
    ∀ (atts : List AttemptInput) (n : Nat),
      (runAttempts oid n atts).countP isRoutingEv ≤ n := by
  intro atts
  induction atts with
  | nil => intro n; cases n <;> simp [runAttempts]
  | cons a rest ih =>
      intro n
      cases n with
      | zero => simp [runAttempts]
      | succ m =>
          obtain ⟨rQ, mQ, sw⟩ := a
          cases sw with
          | succeeds tx p =>
              rw [runAttempts_cons_succeeds, attemptEvents_count_routing]
              omega
          | fails msg =>
              rw [runAttempts_cons_fails, List.countP_append,
                attemptEvents_count_routing]
              by_cases hm : m = 0
              · rw [if_pos hm, countP_routing_final]
                omega
              · rw [if_neg hm]
                have := ih m
                omega

lemma runAttempts_confirmed_last (oid : String) :
    ∀ (atts : List AttemptInput) (n : Nat) (e : BusEvent),
      e ∈ runAttempts oid n atts → e.status = Status.confirmed →
      (runAttempts oid n atts).getLast? = some e := by
  intro atts
  induction atts with
  | nil =>
      intro n e he
      cases n <;> simp [runAttempts] at he
  | cons a rest ih =>
      intro n e he hst
      cases n with
      | zero => simp [runAttempts] at he
      | succ m =>
          obtain ⟨rQ, mQ, sw⟩ := a
          cases sw with
          | succeeds tx p =>
              rw [runAttempts_cons_succeeds] at he ⊢
              simp [attemptEvents] at he
              rcases he with rfl | rfl | rfl | rfl
              · simp at hst
              · simp at hst
              · simp at hst
              · rfl
          | fails msg =>
              rw [runAttempts_cons_fails] at he ⊢
              rcases List.mem_append.mp he with h1 | h2
              · exact absurd hst
                  (attemptEvents_no_confirmed_of_fails oid ⟨rQ, mQ, SwapOutcome.fails msg⟩ rfl e h1)
              · by_cases hm : m = 0
                · rw [if_pos hm] at h2
                  rcases List.mem_singleton.mp h2 with rfl
                  simp at hst
                · rw [if_neg hm] at h2 ⊢
                  rw [List.getLast?_append_of_ne_nil _ (List.ne_nil_of_mem h2)]
                  exact ih m e h2 hst

lemma runAttempts_shape (oid : String) :
    ∀ (atts : List AttemptInput) (n : Nat) (e : BusEvent),
      e ∈ runAttempts oid n atts → e.orderId = oid ∧ shapeOk e := by
  intro atts
  induction atts with
  | nil =>
      intro n e he
      cases n <;> simp [runAttempts] at he
  | cons a rest ih =>
      intro n e he
      cases n with
      | zero => simp [runAttempts] at he
      | succ m =>
          obtain ⟨rQ, mQ, sw⟩ := a
          cases sw with
          | succeeds tx p =>
              rw [runAttempts_cons_succeeds] at he
              exact attemptEvents_shape oid ⟨rQ, mQ, SwapOutcome.succeeds tx p⟩ e he
          | fails msg =>
              rw [runAttempts_cons_fails] at he
              rcases List.mem_append.mp he with h1 | h2
              · exact attemptEvents_shape oid ⟨rQ, mQ, SwapOutcome.fails msg⟩ e h1
              · by_cases hm : m = 0
                · rw [if_pos hm] at h2
                  rcases List.mem_singleton.mp h2 with rfl
                  exact ⟨rfl, ⟨_, rfl⟩⟩
                · rw [if_neg hm] at h2
                  exact ih m e h2

lemma runAttempts_cons_fails_of_swap (oid : String) (m : Nat) (a : AttemptInput)
    (msg : String) (rest : List AttemptInput) (ha : a.swap = SwapOutcome.fails msg) :
    runAttempts oid (m + 1) (a :: rest) =
      attemptEvents oid a ++
        (if m = 0 then [⟨Status.failed, oid, some (EventMeta.failedMeta msg)⟩]
         else runAttempts oid m rest) := by
  obtain ⟨rQ, mQ, sw⟩ := a
  have h2 : sw = SwapOutcome.fails msg := ha
  subst h2
  exact runAttempts_cons_fails oid m rQ mQ msg rest

lemma jobEvents_exhausted (oid : String) (attempts : List AttemptInput)
    (h : exhaustsRetries attempts) :
    ∃ a b c rest m1 m2 m3,
      attempts = a :: b :: c :: rest ∧
      a.swap = SwapOutcome.fails m1 ∧ b.swap = SwapOutcome.fails m2 ∧
      c.swap = SwapOutcome.fails m3 ∧
      jobEvents oid attempts =
        attemptEvents oid a ++ (attemptEvents oid b ++ (attemptEvents oid c ++
          [⟨Status.failed, oid, some (EventMeta.failedMeta m3)⟩])) := by
  obtain ⟨hlen, hall⟩ := h
  rcases attempts with _ | ⟨a, _ | ⟨b, _ | ⟨c, rest⟩⟩⟩
  · simp [jobAttempts] at hlen
  · simp [jobAttempts] at hlen
  · simp [jobAttempts] at hlen
  · have ha := hall a (by simp [jobAttempts])
    have hb := hall b (by simp [jobAttempts])
    have hc := hall c (by simp [jobAttempts])
    cases hsa : a.swap with
    | succeeds tx p => rw [hsa] at ha; simp [SwapOutcome.isFails] at ha
    | fails m1 =>
        cases hsb : b.swap with
        | succeeds tx p => rw [hsb] at hb; simp [SwapOutcome.isFails] at hb
        | fails m2 =>
            cases hsc : c.swap with
            | succeeds tx p => rw [hsc] at hc; simp [SwapOutcome.isFails] at hc
            | fails m3 =>
                refine ⟨a, b, c, rest, m1, m2, m3, rfl, hsa, hsb, hsc, ?_⟩
                rw [jobEvents, show jobAttempts = 2 + 1 from rfl,
                  runAttempts_cons_fails_of_swap oid 2 a m1 _ hsa, if_neg (by omega)]
                rw [show (2 : Nat) = 1 + 1 from rfl,
                  runAttempts_cons_fails_of_swap oid 1 b m2 _ hsb, if_neg (by omega)]
                rw [show (1 : Nat) = 0 + 1 from rfl,
                  runAttempts_cons_fails_of_swap oid 0 c m3 _ hsc, if_pos rfl]

lemma jobEvents_exhausted_getLast (oid : String) (attempts : List AttemptInput)
    (hex : exhaustsRetries attempts) :
    ∃ msg, (jobEvents oid attempts).getLast? =
      some ⟨Status.failed, oid, some (EventMeta.failedMeta msg)⟩ := by
  obtain ⟨a, b, c, rest, m1, m2, m3, hatt, hsa, hsb, hsc, htr⟩ :=
    jobEvents_exhausted oid attempts hex
  refine ⟨m3, ?_⟩
  rw [htr]
  rw [List.getLast?_append_of_ne_nil _ (by simp)]
  rw [List.getLast?_append_of_ne_nil _ (by simp)]
  rw [List.getLast?_append_of_ne_nil _ (by simp)]
  rfl

/-- A first attempt whose swap throws (quotes resolved, settlement failed). -/
def cxFailAttempt : AttemptInput :=
  ⟨raydiumQuote (1/2), meteoraQuote (1/2),
   SwapOutcome.fails "Simulated network execution failure"⟩

/-- A retry attempt whose swap succeeds. -/
def cxOkAttempt : AttemptInput :=
  ⟨raydiumQuote (1/2), meteoraQuote (1/2),
   SwapOutcome.succeeds "MOCK_TX_m9x_42" 99⟩

/-- C3 counterexample: for a job whose first attempt fails and whose retry
succeeds, the catch block publishes a `failed` event for the order and the
retry later publishes a `confirmed` event — so an order emits a `failed`
event with a `confirmed` event after it, and both terminal statuses occur
for one order, contradicting the claim. -/
theorem terminal_events_counterexample :
    (jobEvents "o1" [cxFailAttempt, cxOkAttempt]).countP isFailedEv = 1 ∧
    (jobEvents "o1" [cxFailAttempt, cxOkAttempt]).countP isConfirmedEv = 1 ∧
    ((jobEvents "o1" [cxFailAttempt, cxOkAttempt])[3]?).map BusEvent.status =
      some Status.failed ∧
    ((jobEvents "o1" [cxFailAttempt, cxOkAttempt])[7]?).map BusEvent.status =
      some Status.confirmed :=
  ⟨rfl, rfl, rfl, rfl⟩

/-- C3 (amended): at most one `confirmed` event is ever published per order,
and when a `confirmed` event occurs it is the last event of the order's
trace; an order that exhausts its retries emits no `confirmed` event, at
least one `failed` event, and its trace ends with the terminal `failed`
event — but a per-attempt `failed` event may be followed by further events
when a retry succeeds, as the counterexample shows. -/
theorem terminal_events (oid : String) (attempts : List AttemptInput) :
    (jobEvents oid attempts).countP isConfirmedEv ≤ 1 ∧
    (∀ e ∈ jobEvents oid attempts, e.status = Status.confirmed →
      (jobEvents oid attempts).getLast? = some e) ∧
    (exhaustsRetries attempts →
      (jobEvents oid attempts).countP isConfirmedEv = 0 ∧
      1 ≤ (jobEvents oid attempts).countP isFailedEv ∧
      ∃ msg, (jobEvents oid attempts).getLast? =
        some ⟨Status.failed, oid, some (EventMeta.failedMeta msg)⟩) := by
  refine ⟨runAttempts_count_confirmed_le oid attempts jobAttempts,
    fun e he hst => runAttempts_confirmed_last oid attempts jobAttempts e he hst, ?_⟩
  intro hex
  obtain ⟨a, b, c, rest, m1, m2, m3, hatt, hsa, hsb, hsc, htr⟩ :=
    jobEvents_exhausted oid attempts hex
  refine ⟨?_, ?_, jobEvents_exhausted_getLast oid attempts hex⟩
  · rw [htr]
    simp only [List.countP_append]
    rw [attemptEvents_count_confirmed, attemptEvents_count_confirmed,
      attemptEvents_count_confirmed, countP_confirmed_final, hsa, hsb, hsc]
    rfl
  · rw [htr]
    simp only [List.countP_append]
    rw [attemptEvents_count_failed, hsa]
    simp only [SwapOutcome.isFails, if_true]
    omega

/-- C3 witness: a concrete job that exhausts its three attempts emits no
`confirmed` event and at least one `failed` event. -/
theorem terminal_events_witness :
    (jobEvents "w3" [cxFailAttempt, cxFailAttempt, cxFailAttempt]).countP isConfirmedEv = 0 ∧
    1 ≤ (jobEvents "w3" [cxFailAttempt, cxFailAttempt, cxFailAttempt]).countP isFailedEv := by
  have h := (terminal_events "w3" [cxFailAttempt, cxFailAttempt, cxFailAttempt]).2.2 ?hex
  · exact ⟨h.1, h.2.1⟩
  case hex =>
    refine ⟨by simp [jobAttempts], ?_⟩
    intro a ha
    simp [jobAttempts] at ha
    rcases ha with rfl | rfl | rfl <;> rfl

/-- C4 counterexample: an order that reaches `confirmed` on its second
attempt is observed with the sequence `pending, routing, building,
submitted, failed, routing, building, submitted, confirmed` — repeated and
extra statuses, not the exact five-stage sequence the claim requires. -/
theorem lifecycle_sequence_counterexample :
    (jobEvents "o4" [cxFailAttempt, cxOkAttempt]).countP isConfirmedEv = 1 ∧
    (subscriberMessages "o4" [cxFailAttempt, cxOkAttempt]).map BusEvent.status =
      [Status.pending, Status.routing, Status.building, Status.submitted, Status.failed,
       Status.routing, Status.building, Status.submitted, Status.confirmed] ∧
    [Status.pending, Status.routing, Status.building, Status.submitted, Status.failed,
     Status.routing, Status.building, Status.submitted, Status.confirmed] ≠
      [Status.pending, Status.routing, Status.building, Status.submitted, Status.confirmed] :=
  ⟨rfl, rfl, by decide⟩

/-- C4 (amended): for every order that reaches `confirmed` on its first
attempt the observed status sequence is exactly `pending, routing, building,
submitted, confirmed` with no omission, repetition or reordering (a retried
attempt replays `routing, building, submitted` first, as the counterexample
shows); and for every transition other than the initial `pending` the event
is published on the bus immediately before the updated status is persisted. -/
theorem lifecycle_sequence (oid : String) (a : AttemptInput) (tx : String) (p : ℚ)
    (h : a.swap = SwapOutcome.succeeds tx p) :
    (subscriberMessages oid [a]).map BusEvent.status =
      [Status.pending, Status.routing, Status.building, Status.submitted, Status.confirmed] ∧
    (∀ s : Status, s ≠ Status.pending →
      ∀ i : Fin (attemptActions a).length,
        (attemptActions a).get i = Action.persist s →
        ∃ j : Fin (attemptActions a).length,
          (j : ℕ) + 1 = (i : ℕ) ∧ (attemptActions a).get j = Action.publish s) := by
  obtain ⟨rQ, mQ, sw⟩ := a
  have h2 : sw = SwapOutcome.succeeds tx p := h
  subst h2
  constructor
  · rfl
  · have hA : attemptActions ⟨rQ, mQ, SwapOutcome.succeeds tx p⟩ =
        [Action.persist Status.pending, Action.persist Status.pending,
         Action.publish Status.routing, Action.persist Status.routing,
         Action.publish Status.building, Action.persist Status.building,
         Action.publish Status.submitted, Action.persist Status.submitted,
         Action.publish Status.confirmed, Action.persist Status.confirmed] := rfl
    rw [hA]
    intro s hs
    cases s
    · exact absurd rfl hs
    all_goals decide

/-- C4 witness: a concrete first-attempt success observes exactly the
five-stage sequence. -/
theorem lifecycle_sequence_witness :
    (subscriberMessages "w4" [cxOkAttempt]).map BusEvent.status =
      [Status.pending, Status.routing, Status.building, Status.submitted, Status.confirmed] :=
  (lifecycle_sequence "w4" cxOkAttempt "MOCK_TX_m9x_42" 99 rfl).1

/-- C5: after a failed attempt the dispatcher retries with exponential
backoff `1000ms * 2^(attempt-1)` (so 1000ms after attempt 1, 2000ms after
attempt 2); the total number of attempts is capped at `attempts: 3`; after
the third failed attempt the order is permanently failed (its trace ends
with the terminal `failed` event) and no further attempt runs (exactly
`jobAttempts` `routing` events occur, whatever else is queued). -/
theorem retry_backoff_policy (oid : String) (attempts : List AttemptInput) :
    retryDecision 1 = RetryDecision.retryAfter 1000 ∧
    retryDecision 2 = RetryDecision.retryAfter 2000 ∧
    retryDecision 3 = RetryDecision.permanentFail ∧
    (∀ k : Nat, 1 ≤ k → k < jobAttempts →
      retryDecision k = RetryDecision.retryAfter (backoffBaseMs * 2 ^ (k - 1))) ∧
    (jobEvents oid attempts).countP isRoutingEv ≤ jobAttempts ∧
    (exhaustsRetries attempts →
      (jobEvents oid attempts).countP isRoutingEv = jobAttempts ∧
      ∃ msg, (jobEvents oid attempts).getLast? =
        some ⟨Status.failed, oid, some (EventMeta.failedMeta msg)⟩) := by
  refine ⟨rfl, rfl, rfl, ?_, runAttempts_count_routing_le oid attempts jobAttempts, ?_⟩
  · intro k h1 h2
    rw [retryDecision, if_pos h2, backoffDelayMs]
  · intro hex
    obtain ⟨a, b, c, rest, m1, m2, m3, hatt, hsa, hsb, hsc, htr⟩ :=
      jobEvents_exhausted oid attempts hex
    refine ⟨?_, jobEvents_exhausted_getLast oid attempts hex⟩
    rw [htr]
    simp only [List.countP_append]
    rw [attemptEvents_count_routing, attemptEvents_count_routing,
      attemptEvents_count_routing, countP_routing_final]
    rfl

/-- C5 witness: concrete values of the backoff schedule, and a concrete
always-failing job that runs exactly three attempts. -/
theorem retry_backoff_policy_witness :
    retryDecision 1 = RetryDecision.retryAfter 1000 ∧
    retryDecision 2 = RetryDecision.retryAfter 2000 ∧
    (jobEvents "w5" [cxFailAttempt, cxFailAttempt, cxFailAttempt]).countP isRoutingEv =
      jobAttempts := by
  have h := retry_backoff_policy "w5" [cxFailAttempt, cxFailAttempt, cxFailAttempt]
  refine ⟨h.1, h.2.1, (h.2.2.2.2.2 ?_).1⟩
  refine ⟨by simp [jobAttempts], ?_⟩
  intro a ha
  simp [jobAttempts] at ha
  rcases ha with rfl | rfl | rfl <;> rfl

/-- C9 counterexample: with a failing first attempt and a successful retry,
the subscriber's message at index 4 carries the terminal status `failed`,
yet a further message (index 5, `routing`) follows — the channel does not
end after a terminal status. -/
theorem subscription_stream_counterexample :
    ((subscriberMessages "o9" [cxFailAttempt, cxOkAttempt])[4]?).map BusEvent.status =
      some Status.failed ∧
    ((subscriberMessages "o9" [cxFailAttempt, cxOkAttempt])[5]?).map BusEvent.status =
      some Status.routing :=
  ⟨rfl, rfl⟩

/-- C9 (amended): the first message delivered to a subscriber is the
synthetic `{status: "pending", orderId}` snapshot emitted at subscription
time before any live event; every message is tagged with the order id and
carries the metadata shape of its status (`{venue, price}` at building,
`{venue}` at submitted, `{transactionId, executedPrice, venue}` at
confirmed, `{error}` at failed); and after a `confirmed` message the channel
ends (it is the last message) — but an attempt-level `failed` message may be
followed by retry messages, as the counterexample shows. -/
theorem subscription_stream (oid : String) (attempts : List AttemptInput) :
    (subscriberMessages oid attempts).head? = some ⟨Status.pending, oid, none⟩ ∧
    (∀ e ∈ subscriberMessages oid attempts, e.orderId = oid ∧ shapeOk e) ∧
    (∀ e ∈ subscriberMessages oid attempts, e.status = Status.confirmed →
      (subscriberMessages oid attempts).getLast? = some e) := by
  refine ⟨rfl, ?_, ?_⟩
  · intro e he
    rcases List.mem_cons.mp he with rfl | h2
    · exact ⟨rfl, rfl⟩
    · exact runAttempts_shape oid attempts jobAttempts e h2
  · intro e he hst
    rcases List.mem_cons.mp he with rfl | h2
    · simp at hst
    · have hlast := runAttempts_confirmed_last oid attempts jobAttempts e h2 hst
      show ((⟨Status.pending, oid, none⟩ : BusEvent) :: jobEvents oid attempts).getLast? = some e
      rw [show ((⟨Status.pending, oid, none⟩ : BusEvent) :: jobEvents oid attempts) =
        [(⟨Status.pending, oid, none⟩ : BusEvent)] ++ jobEvents oid attempts from rfl]
      rw [List.getLast?_append_of_ne_nil _ (List.ne_nil_of_mem h2)]
      exact hlast

/-- C9 witness: the first message of a fresh subscription is the pending
snapshot. -/
theorem subscription_stream_witness :
    (subscriberMessages "w9" []).head? = some ⟨Status.pending, "w9", none⟩ :=
  (subscription_stream "w9" []).1

/-- The invariant the admission gates maintain: at most `concurrencyCap`
jobs executing, every recorded start time in the past, and at most
`limiterMax` starts inside any trailing window. -/
structure SchedInv (st : SchedState) : Prop where
  conc_le : st.executing.length ≤ concurrencyCap
  times_le : ∀ s ∈ st.startTimes, s ≤ st.now
  window_le : ∀ t, windowStarts st t ≤ limiterMax

lemma schedInv_init : SchedInv initSched := by
  refine ⟨?_, ?_, ?_⟩
  · simp [initSched, concurrencyCap]
  · intro s hs
    simp [initSched] at hs
  · intro t
    simp [windowStarts, initSched, limiterMax]

lemma schedInv_step {st st' : SchedState} (h : SchedStep st st') (hinv : SchedInv st) :
    SchedInv st' := by
  cases h with
  | tick d =>
      refine ⟨hinv.conc_le, ?_, hinv.window_le⟩
      intro s hs
      exact le_trans (hinv.times_le s hs) (Nat.le_add_right _ _)
  | enqueue j =>
      exact ⟨hinv.conc_le, hinv.times_le, hinv.window_le⟩
  | admitJob j rest hq hc hr =>
      refine ⟨?_, ?_, ?_⟩
      · simpa using hc
      · intro s hs
        rcases List.mem_cons.mp hs with rfl | hs'
        · exact le_refl _
        · exact hinv.times_le s hs'
      · intro t
        show List.countP (inWindow t) (st.now :: st.startTimes) ≤ limiterMax
        rw [List.countP_cons]
        by_cases hin : inWindow t st.now = true
        · have hnow_le : st.now ≤ t := by
            have h3 := hin
            rw [inWindow, Bool.and_eq_true, decide_eq_true_eq, decide_eq_true_eq] at h3
            exact h3.2
          have hsub : st.startTimes.countP (inWindow t) ≤ gateCount st := by
            apply List.countP_mono_left
            intro s hs hps
            rw [inWindow, Bool.and_eq_true, decide_eq_true_eq, decide_eq_true_eq] at hps
            rw [decide_eq_true_eq]
            omega
          rw [hin, if_pos rfl]
          have h4 := hr
          omega
        · rw [Bool.not_eq_true] at hin
          rw [hin]
          have h5 := hinv.window_le t
          rw [windowStarts] at h5
          simpa using h5
  | finish j hj =>
      refine ⟨?_, hinv.times_le, hinv.window_le⟩
      calc (st.executing.erase j).length ≤ st.executing.length :=
            (st.executing.erase_sublist j).length_le
        _ ≤ concurrencyCap := hinv.conc_le

lemma schedInv_reachable {st : SchedState} (h : SchedReachable initSched st) :
    SchedInv st := by
  induction h with
  | refl => exact schedInv_init
  | tail _ hstep ih => exact schedInv_step hstep ih

lemma sched_no_drop_step {st st' : SchedState} (h : SchedStep st st') (j : String)
    (hj : jobPresent st j) : jobPresent st' j := by
  cases h with
  | tick d =>
      exact hj
  | enqueue j' =>
      rcases hj with h1 | h2 | h3
      · exact Or.inl (List.mem_append_left _ h1)
      · exact Or.inr (Or.inl h2)
      · exact Or.inr (Or.inr h3)
  | admitJob j' rest hq hc hr =>
      rcases hj with h1 | h2 | h3
      · rw [hq] at h1
        rcases List.mem_cons.mp h1 with rfl | h1'
        · exact Or.inr (Or.inl (List.mem_cons_self _ _))
        · exact Or.inl h1'
      · exact Or.inr (Or.inl (List.mem_cons_of_mem _ h2))
      · exact Or.inr (Or.inr h3)
  | finish j' hj' =>
      rcases hj with h1 | h2 | h3
      · exact Or.inl h1
      · by_cases hje : j = j'
        · subst hje
          exact Or.inr (Or.inr (List.mem_cons_self _ _))
        · exact Or.inr (Or.inl ((List.mem_erase_of_ne hje).mpr h2))
      · exact Or.inr (Or.inr (List.mem_cons_of_mem _ h3))

lemma sched_no_drop {st st' : SchedState} (h : SchedReachable st st') (j : String)
    (hj : jobPresent st j) : jobPresent st' j := by
  induction h with
  | refl => exact hj
  | tail _ hstep ih => exact sched_no_drop_step hstep j ih

/-- A concrete reachable scheduler state: one job enqueued and admitted. -/
def oneJobSched : SchedState :=
  { queued := [], executing := ["j1"], finished := [], startTimes := [0], now := 0 }

/-- C6 (spec-modelled admission): in every state the scheduler can reach, at
most `concurrency: 10` jobs are executing at once (the building/submitted
work happens inside an executing slot) no matter how many are queued, at
most `limiter.max = 100` job starts lie in any trailing
`limiter.duration = 60000` ms window, and any job present now is still
present after any further steps — blocked jobs stay queued, none are
dropped. -/
theorem admission_gates_bound (st st' : SchedState)
    (h : SchedReachable initSched st) (h' : SchedReachable st st') :
    st.executing.length ≤ concurrencyCap ∧
    (∀ t, windowStarts st t ≤ limiterMax) ∧
    (∀ j, jobPresent st j → jobPresent st' j) := by
  have hinv := schedInv_reachable h
  exact ⟨hinv.conc_le, hinv.window_le, fun j hj => sched_no_drop h' j hj⟩

/-- C6 witness: the bounds instantiated at a concrete reachable state (one
job enqueued and then admitted from the initial state). -/
theorem admission_gates_bound_witness :
    oneJobSched.executing.length ≤ concurrencyCap ∧
    (∀ t, windowStarts oneJobSched t ≤ limiterMax) ∧
    (∀ j, jobPresent oneJobSched j → jobPresent oneJobSched j) := by
  have hstep1 : SchedStep initSched
      { queued := ["j1"], executing := [], finished := [], startTimes := [], now := 0 } :=
    SchedStep.enqueue initSched "j1"
  have hstep2 : SchedStep
      { queued := ["j1"], executing := [], finished := [], startTimes := [], now := 0 }
      oneJobSched :=
    SchedStep.admitJob _ "j1" [] rfl (by simp [concurrencyCap]) (by simp [gateCount, limiterMax])
  exact admission_gates_bound _ _
    (Relation.ReflTransGen.tail (Relation.ReflTransGen.single hstep1) hstep2)
    Relation.ReflTransGen.refl

/-- A call to `executeSwap` in the same millisecond as `swapRandB` drawing
the same id suffix. -/
def swapRandA : SwapRandom := ⟨1/2, 0, 1000, 42⟩

/-- A distinct call (different random draws) sharing `swapRandA`'s
millisecond timestamp and id suffix. -/
def swapRandB : SwapRandom := ⟨3/4, 1/2, 1000, 42⟩

/-- C7 counterexample: two distinct successful `executeSwap` calls that share
the `Date.now()` millisecond and the random suffix produce the same
transaction identifier while returning different executed prices — the
identifier is not unique per call. -/
theorem executeSwap_counterexample :
    swapRandA ≠ swapRandB ∧
    ∃ a b : SwapResult,
      executeSwap swapRandA = Except.ok a ∧
      executeSwap swapRandB = Except.ok b ∧
      a.txHash = b.txHash ∧ a.executedPrice ≠ b.executedPrice := by
  constructor
  · intro h
    have h2 := congrArg SwapRandom.failRoll h
    rw [swapRandA, swapRandB] at h2
    norm_num at h2
  · refine ⟨⟨"MOCK_TX_" ++ toBase36 1000 ++ "_" ++ toString 42, 98⟩,
      ⟨"MOCK_TX_" ++ toBase36 1000 ++ "_" ++ toString 42, 100⟩, ?_, ?_, rfl, by norm_num⟩
    · simp only [executeSwap, swapRandA]
      norm_num [failThreshold, basePrice]
    · simp only [executeSwap, swapRandB]
      norm_num [failThreshold, basePrice]

/-- C7 (amended): every `executeSwap` call either throws (exactly when the
failure roll falls below the fixed `0.02` threshold — a 2% chance for a
uniform roll) or fully succeeds, returning a non-empty transaction
identifier and an executed price > 0 drawn from the same
`basePrice * (0.98 + u * 0.04)` family as the raydium quote; no
partial-settlement outcome exists; but the identifier is a function of the
call's millisecond timestamp and random suffix alone, so two calls sharing
both collide — it is not unique per call (see the counterexample). -/
theorem executeSwap_atomic (r : SwapRandom) (h0 : 0 ≤ r.priceRoll) (h1 : r.priceRoll < 1) :
    ((∃ msg, executeSwap r = Except.error msg) ↔ r.failRoll < failThreshold) ∧
    (failThreshold ≤ r.failRoll →
      ∃ res : SwapResult, executeSwap r = Except.ok res ∧
        res.txHash ≠ "" ∧
        res.executedPrice = (raydiumQuote r.priceRoll).price ∧
        0 < res.executedPrice) ∧
    (∀ r' : SwapRandom, r.nowMs = r'.nowMs → r.idRoll = r'.idRoll →
      ∀ a b : SwapResult, executeSwap r = Except.ok a → executeSwap r' = Except.ok b →
        a.txHash = b.txHash) := by
  refine ⟨⟨?_, ?_⟩, ?_, ?_⟩
  · rintro ⟨msg, hmsg⟩
    by_contra hlt
    rw [executeSwap, if_neg hlt] at hmsg
    exact Except.noConfusion hmsg
  · intro hlt
    exact ⟨_, by rw [executeSwap, if_pos hlt]⟩
  · intro hge
    refine ⟨_, by rw [executeSwap, if_neg (not_lt.mpr hge)], ?_, rfl, ?_⟩
    · intro hemp
      have hlen := congrArg String.length hemp
      rw [String.length_append, String.length_append, String.length_append] at hlen
      have h8 : ("MOCK_TX_" : String).length = 8 := rfl
      simp [h8] at hlen
    · show (0 : ℚ) < basePrice * (98/100 + r.priceRoll * (4/100))
      have hp : (0 : ℚ) ≤ r.priceRoll * (4/100) := by positivity
      rw [basePrice]
      nlinarith
  · intro r' hn hi a b ha hb
    by_cases hf : r.failRoll < failThreshold
    · rw [executeSwap, if_pos hf] at ha
      exact Except.noConfusion ha
    · by_cases hf' : r'.failRoll < failThreshold
      · rw [executeSwap, if_pos hf'] at hb
        exact Except.noConfusion hb
      · rw [executeSwap, if_neg hf] at ha
        rw [executeSwap, if_neg hf'] at hb
        injection ha with ha2
        injection hb with hb2
        rw [← ha2, ← hb2, hn, hi]

/-- C7 witness: a concrete call with failure roll above the threshold fully
succeeds with a non-empty id and a positive price from the quote family. -/
theorem executeSwap_atomic_witness :
    ∃ res : SwapResult, executeSwap ⟨1/2, 1/2, 1000, 42⟩ = Except.ok res ∧
      res.txHash ≠ "" ∧
      res.executedPrice = (raydiumQuote ((⟨1/2, 1/2, 1000, 42⟩ : SwapRandom).priceRoll)).price ∧
      0 < res.executedPrice :=
  (executeSwap_atomic ⟨1/2, 1/2, 1000, 42⟩ (by norm_num) (by norm_num)).2.1
    (by norm_num [failThreshold])

/-- C8: `saveOrder` and `updateOrderStatus` never propagate an exception to
their caller: a thrown query error is caught, logged and swallowed with the
store left unchanged; consequently the worker's published event trace — and
hence the order's lifecycle progression — is identical whatever the outcome
of every store write: a failed database write neither blocks nor rolls back
nor alters the lifecycle. -/
theorem persistence_nonfatal (o : Order) (oid status : String) (d : UpdateData)
    (store : List OrderRow) (a : AttemptInput) (dbF dbF' : List Bool) :
    saveOrder true o store = (store, ["Save order error"]) ∧
    updateOrderStatus true oid status d store = (store, ["Update order status error"]) ∧
    (runAttemptDb dbF o a store).1 = attemptEvents o.orderId a ∧
    (runAttemptDb dbF o a store).1 = (runAttemptDb dbF' o a store).1 := by
  refine ⟨rfl, rfl, ?_, ?_⟩
  · obtain ⟨rQ, mQ, sw⟩ := a
    cases sw <;> rfl
  · obtain ⟨rQ, mQ, sw⟩ := a
    cases sw <;> rfl

/-- Number of rows a store holds for a given order id. -/
def rowCount (oid : String) (store : List OrderRow) : Nat :=
  store.countP (fun r => r.order_id == oid)

lemma saveOrder_key_mem (o : Order) (store : List OrderRow) :
    ((saveOrder false o store).1.any (fun r => r.order_id == o.orderId)) = true := by
  by_cases hany : store.any (fun r => r.order_id == o.orderId) = true
  · have h1 : (saveOrder false o store).1 = store := by
      simp [saveOrder, saveOrderQuery, hany]
    rw [h1]
    exact hany
  · rw [Bool.not_eq_true] at hany
    have h1 : (saveOrder false o store).1 = store ++ [newOrderRow o] := by
      simp [saveOrder, saveOrderQuery, hany]
    rw [h1, List.any_append]
    have h2 : ([newOrderRow o].any (fun r => r.order_id == o.orderId)) = true := by
      simp [newOrderRow]
    rw [h2, Bool.or_true]

/-- C10: `saveOrder` is idempotent per order id: the store keeps at most one
row per `order_id` (`ON CONFLICT DO NOTHING` on the unique column), a second
`saveOrder` for the same order id — as a retried attempt performs — leaves
the store, including the originally persisted row's `created_at`, completely
unchanged, `saveOrder` never modifies an existing row, and
`updateOrderStatus` preserves the one-row-per-id bound (state changes flow
only through it). -/
theorem saveOrder_idempotent (o o2 : Order) (oid status : String) (d : UpdateData)
    (store : List OrderRow) (f : Bool)
    (hid : o2.orderId = o.orderId)
    (huniq : ∀ x, rowCount x store ≤ 1) :
    (∀ x, rowCount x ((saveOrder f o store).1) ≤ 1) ∧
    (saveOrder f o2 ((saveOrder false o store).1)).1 = (saveOrder false o store).1 ∧
    (∀ r ∈ store, r ∈ (saveOrder f o store).1) ∧
    (∀ x, rowCount x ((updateOrderStatus f oid status d store).1) ≤ 1) := by
  refine ⟨?_, ?_, ?_, ?_⟩
  · intro x
    cases f with
    | true => exact huniq x
    | false =>
        by_cases hany : store.any (fun r => r.order_id == o.orderId) = true
        · have h1 : (saveOrder false o store).1 = store := by
            simp [saveOrder, saveOrderQuery, hany]
          rw [h1]
          exact huniq x
        · rw [Bool.not_eq_true] at hany
          have h1 : (saveOrder false o store).1 = store ++ [newOrderRow o] := by
            simp [saveOrder, saveOrderQuery, hany]
          rw [h1, rowCount, List.countP_append, List.countP_cons, List.countP_nil]
          by_cases hx : ((newOrderRow o).order_id == x) = true
          · have hx' : o.orderId = x := by
              have := hx
              rw [newOrderRow] at this
              exact beq_iff_eq.mp this
          -- with the new row matching, the old store holds no row for x
            have hzero : store.countP (fun r => r.order_id == x) = 0 := by
              rw [List.countP_eq_zero]
              intro r hr hcon
              have hnone := List.any_eq_false.mp hany r hr
              rw [← hx'] at hcon
              exact hnone hcon
            rw [hzero, hx, if_pos rfl]
          · rw [Bool.not_eq_true] at hx
            rw [hx, if_neg Bool.false_ne_true]
            have := huniq x
            rw [rowCount] at this
            omega
  · cases f with
    | true => rfl
    | false =>
        have hk := saveOrder_key_mem o store
        rw [← hid] at hk
        have h1 : saveOrderQuery false o2 ((saveOrder false o store).1) =
            Except.ok ((saveOrder false o store).1) := by
          rw [saveOrderQuery, if_neg (by simp), if_pos hk]
        rw [saveOrder, h1]
  · intro r hr
    cases f with
    | true => exact hr
    | false =>
        by_cases hany : store.any (fun w => w.order_id == o.orderId) = true
        · have h1 : (saveOrder false o store).1 = store := by
            simp [saveOrder, saveOrderQuery, hany]
          rw [h1]
          exact hr
        · rw [Bool.not_eq_true] at hany
          have h1 : (saveOrder false o store).1 = store ++ [newOrderRow o] := by
            simp [saveOrder, saveOrderQuery, hany]
          rw [h1]
          exact List.mem_append_left _ hr
  · intro x
    cases f with
    | true => exact huniq x
    | false =>
        have h1 : (updateOrderStatus false oid status d store).1 =
            store.map (fun row => if row.order_id == oid then updateRow status d row else row) := by
          simp [updateOrderStatus, updateOrderStatusQuery]
        rw [h1, rowCount, List.countP_map]
        have h2 : ∀ r : OrderRow,
            ((if r.order_id == oid then updateRow status d r else r).order_id == x) =
              (r.order_id == x) := by
          intro r
          by_cases hro : (r.order_id == oid) = true
          · rw [if_pos hro]
            rfl
          · rw [Bool.not_eq_true] at hro
            rw [hro]
            simp
        have h3 : List.countP
            ((fun r : OrderRow => r.order_id == x) ∘
              (fun row => if row.order_id == oid then updateRow status d row else row)) store =
            List.countP (fun r : OrderRow => r.order_id == x) store := by
          apply List.countP_congr
          intro r hr
          rw [Function.comp_apply, h2 r]
        rw [h3]
        exact huniq x

/-- The order a retried attempt re-saves. -/
def orderW : Order := ⟨"ord-10", "USDC", "SOL", 100, OrderType.market, "t0"⟩

/-- The same order id as seen by the retry (a later `createdAt`). -/
def orderW2 : Order := ⟨"ord-10", "USDC", "SOL", 100, OrderType.market, "t1"⟩

/-- C10 witness: saving the same order id a second time leaves the persisted
store, including the original `created_at`, unchanged. -/
theorem saveOrder_idempotent_witness :
    (saveOrder false orderW2 ((saveOrder false orderW []).1)).1 =
      (saveOrder false orderW []).1 :=
  (saveOrder_idempotent orderW orderW2 "x" "pending" {} [] false rfl
    (fun x => by rw [rowCount]; simp)).2.1

end SwapEngine
